import Mathlib

/-!
Shallow embedding of the core of `paraphrasegen/model.py` (ParCSE), together
with proofs of the behavioural properties stated in the specification.

Tensors of shape [N, L, D] are embedded as functions
`Fin N → Fin (L+1) → Fin D → ℚ` (every tokenized sequence is non-empty: it at
least carries the start-of-sequence token, and the data module pads to a fixed
positive length).  Machine floats are modelled as rationals where the code is
purely arithmetic, and as reals where square roots / logarithms appear
(evaluation metrics, contrastive loss).
-/

namespace ParCSE

/-! ### Python's substring operator (`nd in n`) -/

/-- Boolean test: the first list of characters is a prefix of the second. -/
def isPre : List Char → List Char → Bool
  | [], _ => true
  | _ :: _, [] => false
  | a :: as, b :: bs => a == b && isPre as bs

/-- Boolean test: the first list occurs as a contiguous sublist of the second,
mirroring Python's `needle in haystack` on strings. -/
def listInfix (needle : List Char) : List Char → Bool
  | [] => needle.isEmpty
  | c :: rest => isPre needle (c :: rest) || listInfix needle rest

/-- Python's `needle in haystack` for strings. -/
def strContains (needle haystack : String) : Bool :=
  listInfix needle.data haystack.data

/-! ### Python runtime errors raised during module construction -/

/-- The two kinds of exception these constructors can raise: an
`assert cond, msg` failure, and the `UnboundLocalError` Python raises when a
local variable is read before any branch assigned it. -/
inductive PyError where
  | assertionError (msg : String)
  | unboundLocal (var : String)
deriving DecidableEq

/-- The human-readable message attached to each error. -/
def PyError.message : PyError → String
  | .assertionError m => m
  | .unboundLocal v => "local variable " ++ v ++ " referenced before assignment"

/-! ### Pooler (model.py lines 23-71) -/

/-- The five pooling strategies accepted by `Pooler.__init__`'s assert. -/
def recognizedPoolers : List String :=
  ["cls", "cls_before_pooler", "avg", "avg_top2", "avg_first_last"]

/-- `Pooler.__init__(pooler_type)`: stores the string after asserting it is one
of the five recognized names, with message `unrecognized_pooling_type: {pt}`. -/
def poolerInit (pooler_type : String) : Except PyError String :=
  if pooler_type ∈ recognizedPoolers then .ok pooler_type
  else .error (.assertionError ("unrecognized_pooling_type: " ++ pooler_type))

/-- The backbone output consumed by `Pooler.forward`: `last_hidden_state`
[N, L, D], `pooler_output` [N, D] and the per-layer `hidden_states` tuple
(`K+2` layers: the embedding layer plus at least one transformer layer, so the
Python negative indices `[-1]`, `[-2]`, `[0]` are all in range). -/
structure BertOutputs (N L D K : ℕ) where
  last_hidden_state : Fin N → Fin (L + 1) → Fin D → ℚ
  pooler_output : Fin N → Fin D → ℚ
  hidden_states : Fin (K + 2) → Fin N → Fin (L + 1) → Fin D → ℚ

/-- The mask-weighted average shared by the three `avg*` branches of
`Pooler.forward`: `(h * mask.unsqueeze(-1)).sum(1) / mask.sum(-1).unsqueeze(-1)`. -/
def maskedAvg {N L D : ℕ} (mask : Fin N → Fin (L + 1) → ℚ)
    (h : Fin N → Fin (L + 1) → Fin D → ℚ) : Fin N → Fin D → ℚ :=
  fun n d => (∑ l, h n l d * mask n l) / (∑ l, mask n l)

/-- `Pooler.forward(attention_mask, outputs)`: the if/elif chain over
`self.pooler_type`; `none` is the final `raise NotImplementedError` branch. -/
def poolerForward {N L D K : ℕ} (pooler_type : String)
    (attention_mask : Fin N → Fin (L + 1) → ℚ) (outputs : BertOutputs N L D K) :
    Option (Fin N → Fin D → ℚ) :=
  if pooler_type = "cls_before_pooler" ∨ pooler_type = "cls" then
    some (fun n d => outputs.last_hidden_state n 0 d)
  else if pooler_type = "avg" then
    some (maskedAvg attention_mask outputs.last_hidden_state)
  else if pooler_type = "avg_first_last" then
    some (maskedAvg attention_mask
      (fun n l d =>
        (outputs.hidden_states ⟨0, by omega⟩ n l d +
          outputs.hidden_states (Fin.last (K + 1)) n l d) / 2))
  else if pooler_type = "avg_top2" then
    some (maskedAvg attention_mask
      (fun n l d =>
        (outputs.hidden_states (Fin.last (K + 1)) n l d +
          outputs.hidden_states ⟨K, by omega⟩ n l d) / 2))
  else
    none

/-! ### MLPLayer (model.py lines 74-105) -/

/-- The four activation modules `MLPLayer.__init__` can construct. -/
inductive Activation where
  | gelu | relu | mish | leakyRelu
deriving DecidableEq

/-- The if/elif chain over the `activation` string in `MLPLayer.__init__`.
`none` means no branch assigned `activation_fn`. -/
def lookupActivation (activation : String) : Option Activation :=
  if activation = "GELU" then some .gelu
  else if activation = "ReLU" then some .relu
  else if activation = "mish" then some .mish
  else if activation = "leaky_relu" then some .leakyRelu
  else none

/-- `MLPLayer.__init__`'s activation selection: when no branch matched,
the subsequent read of `activation_fn` raises `UnboundLocalError`. -/
def mlpLayerInit (activation : String) : Except PyError Activation :=
  match lookupActivation activation with
  | some f => .ok f
  | none => .error (.unboundLocal "activation_fn")

/-! ### Encoder.forward input corruption (model.py lines 143-159) -/

/-- `sentence_mask`: the elementwise product of the three boolean tensors
`torch.rand(...) > input_mask_rate`, `input_ids != 101`, `input_ids != 102`. -/
def sentenceMask {N L : ℕ} (input_mask_rate : ℚ)
    (randv : Fin N → Fin (L + 1) → ℚ) (input_ids : Fin N → Fin (L + 1) → ℤ) :
    Fin N → Fin (L + 1) → Bool :=
  fun n l =>
    decide (input_mask_rate < randv n l) &&
      decide (input_ids n l ≠ 101) && decide (input_ids n l ≠ 102)

/-- `input_ids[sentence_mask] = 0`: the value of each entry of the (in-place
updated) `input_ids` tensor after the assignment. -/
def corruptIds {N L : ℕ} (input_mask_rate : ℚ)
    (randv : Fin N → Fin (L + 1) → ℚ) (input_ids : Fin N → Fin (L + 1) → ℤ) :
    Fin N → Fin (L + 1) → ℤ :=
  fun n l => if sentenceMask input_mask_rate randv input_ids n l then 0
    else input_ids n l

/-- The values held by the caller's `input_ids` and `attention_mask` tensors
after `Encoder.forward` returns: under `do_mlm` the corruption assignment
mutates `input_ids` in place; `attention_mask` is never written. -/
def forwardBatchAfter {N L : ℕ} (do_mlm : Bool) (input_mask_rate : ℚ)
    (randv : Fin N → Fin (L + 1) → ℚ) (input_ids : Fin N → Fin (L + 1) → ℤ)
    (attention_mask : Fin N → Fin (L + 1) → ℚ) :
    (Fin N → Fin (L + 1) → ℤ) × (Fin N → Fin (L + 1) → ℚ) :=
  (if do_mlm then corruptIds input_mask_rate randv input_ids else input_ids,
    attention_mask)

/-! ### Encoder.forward pooling and projection (model.py lines 166-180) -/

/-- The tail of `Encoder.forward`: pooled output, then
`if self.pooler_type == "cls": pooler_output = self.net(pooler_output)`.
The MLP `self.net` is abstracted as the function `net` on batched embeddings
(the claim under verification concerns only whether it is applied). -/
def encoderForwardOut {N L D K : ℕ} (pooler_type : String)
    (net : (Fin N → Fin D → ℚ) → Fin N → Fin D → ℚ)
    (attention_mask : Fin N → Fin (L + 1) → ℚ) (outputs : BertOutputs N L D K) :
    Option (Fin N → Fin D → ℚ) :=
  (poolerForward pooler_type attention_mask outputs).map
    (fun pooler_output =>
      if pooler_type = "cls" then net pooler_output else pooler_output)

/-! ### Encoder.configure_optimizers (model.py lines 249-277) -/

/-- `no_decay = ["bias", "LayerNorm.weight"]`. -/
def noDecayMarkers : List String := ["bias", "LayerNorm.weight"]

/-- Python's `any(nd in n for nd in no_decay)` for a parameter name `n`. -/
def hasNoDecayMarker (n : String) : Bool :=
  noDecayMarkers.any (fun nd => strContains nd n)

/-- The named parameters kept by the first group's list comprehension
(`not any(nd in n for nd in no_decay)`). -/
def decayParams {α : Type} (params : List (String × α)) : List (String × α) :=
  params.filter (fun np => !hasNoDecayMarker np.1)

/-- The named parameters kept by the second group's list comprehension
(`any(nd in n for nd in no_decay)`). -/
def noDecayParams {α : Type} (params : List (String × α)) : List (String × α) :=
  params.filter (fun np => hasNoDecayMarker np.1)

/-- `configure_optimizers`: the two parameter groups, each a list of parameter
values (the comprehensions keep `p`, dropping the name) paired with its
`weight_decay`. -/
def configureOptimizers {α : Type} (weight_decay : ℚ)
    (params : List (String × α)) : List (List α × ℚ) :=
  [((decayParams params).map Prod.snd, weight_decay),
    ((noDecayParams params).map Prod.snd, 0)]

/-! ### Encoder._evaluate distance metrics (model.py lines 220-227)

`pos_anchor_emb = anchor_outputs[labels == 1]` selects the rows with label 1;
`torch.norm(pos_anchor_emb - pos_target_emb)` with no `dim` argument is the
Frobenius norm of the whole difference matrix — a zero-dimensional tensor —
and the trailing `.mean()` of a zero-dimensional tensor is that same scalar. -/

/-- Frobenius norm of the rows of `x` selected by `S`. -/
noncomputable def frobNormOver {n d : ℕ} (S : Finset (Fin n))
    (x : Fin n → Fin d → ℝ) : ℝ :=
  Real.sqrt (∑ i in S, ∑ j, x i j ^ 2)

/-- The logged `diff/pos` value: `torch.norm(pos_anchor_emb - pos_target_emb).mean()`
restricted to the label-1 rows.  (`diff/neg` is the same formula over the
label-0 rows.) -/
noncomputable def evalPosDiff {n d : ℕ} (labels : Fin n → ℕ)
    (anchor target : Fin n → Fin d → ℝ) : ℝ :=
  frobNormOver (Finset.univ.filter (fun i => labels i = 1))
    (fun i j => anchor i j - target i j)

/-- The quantity the specification describes for `diff/pos`: the mean over the
label-1 rows of the per-example Euclidean distance between anchor and target. -/
noncomputable def specMeanPosDiff {n d : ℕ} (labels : Fin n → ℕ)
    (anchor target : Fin n → Fin d → ℝ) : ℝ :=
  (∑ i in Finset.univ.filter (fun i => labels i = 1),
      Real.sqrt (∑ j, (anchor i j - target i j) ^ 2)) /
    (Finset.univ.filter (fun i => labels i = 1)).card

/-! ### Contrastive loss

Modelled from the spec: `paraphrasegen/loss.py` (the `Similarity` and
`ContrastiveLoss` modules) is not part of the sources; the definitions below
follow spec sections 4.1 and 4.4 word for word. -/

/-- Modelled from the spec: cosine similarity of two embedding vectors
(spec section 4.1; `loss.py` is missing from the sources). -/
noncomputable def cosSim {D : ℕ} (a b : Fin D → ℝ) : ℝ :=
  (∑ j, a j * b j) /
    (Real.sqrt (∑ j, a j ^ 2) * Real.sqrt (∑ j, b j ^ 2))

/-- Modelled from the spec: temperature-scaled cosine similarity, entry (i,j)
of the similarity matrix (spec section 4.1). -/
noncomputable def simTemp {D : ℕ} (temp : ℝ) (a b : Fin D → ℝ) : ℝ :=
  cosSim a b / temp

/-- Modelled from the spec: row `i` of the concatenated `[S1 | S2]` logits
(spec section 4.4, steps 1-4), with the hard-negative bias `w` added at the
diagonal position of `S2`.  `Sum.inl j` indexes the `S1` block (targets),
`Sum.inr j` the `S2` block (negatives). -/
noncomputable def lossLogits {N D : ℕ} (temp w : ℝ)
    (za zt zn : Fin N → Fin D → ℝ) : Fin N → (Fin N ⊕ Fin N) → ℝ :=
  fun i => Sum.elim
    (fun j => simTemp temp (za i) (zt j))
    (fun j => simTemp temp (za i) (zn j) + (if j = i then w else 0))

/-- Categorical cross-entropy of one row of logits against the label `lbl`:
`log (∑ exp logits) - logits lbl`. -/
noncomputable def crossEntropyRow {κ : Type} [Fintype κ] (row : κ → ℝ)
    (lbl : κ) : ℝ :=
  Real.log (∑ j, Real.exp (row j)) - row lbl

/-- Modelled from the spec: the contrastive loss, the batch mean of the
per-row cross-entropy of `[S1 | S2]` against label `i` (spec section 4.4,
step 5). -/
noncomputable def contrastiveLoss {N D : ℕ} (temp w : ℝ)
    (za zt zn : Fin N → Fin D → ℝ) : ℝ :=
  (∑ i, crossEntropyRow (lossLogits temp w za zt zn i) (Sum.inl i)) / N

/-- Modelled from the spec: the unweighted in-batch-negative loss — the same
construction with no bias added to any negative column. -/
noncomputable def inBatchLogits {N D : ℕ} (temp : ℝ)
    (za zt zn : Fin N → Fin D → ℝ) : Fin N → (Fin N ⊕ Fin N) → ℝ :=
  fun i => Sum.elim
    (fun j => simTemp temp (za i) (zt j))
    (fun j => simTemp temp (za i) (zn j))

/-- Modelled from the spec: mean row-wise cross-entropy over the unweighted
concatenated logits. -/
noncomputable def inBatchLoss {N D : ℕ} (temp : ℝ)
    (za zt zn : Fin N → Fin D → ℝ) : ℝ :=
  (∑ i, crossEntropyRow (inBatchLogits temp za zt zn i) (Sum.inl i)) / N

/-! ### Concrete inputs used by witnesses and counterexamples -/

/-- A single-token batch of uniform draws, all equal to 1/2. -/
def exRand1 : Fin 1 → Fin 1 → ℚ := fun _ _ => 1 / 2

/-- A single-token batch of input ids holding the ordinary token id 5. -/
def exIds1 : Fin 1 → Fin 1 → ℤ := fun _ _ => 5

/-- A single-token batch of input ids holding the boundary id 101. -/
def exBoundaryIds : Fin 1 → Fin 1 → ℤ := fun _ _ => 101

/-- An all-ones attention mask for a single-token batch. -/
def exMask1 : Fin 1 → Fin 1 → ℚ := fun _ _ => 1

/-- Labels for a two-example evaluation batch, both positive. -/
def exLabels2 : Fin 2 → ℕ := fun _ => 1

/-- Anchor embeddings for the two-example batch: rows (3) and (4). -/
def exAnchor2 : Fin 2 → Fin 1 → ℝ := fun i _ => if i = 0 then 3 else 4

/-- Target embeddings for the two-example batch: both rows zero. -/
def exTarget2 : Fin 2 → Fin 1 → ℝ := fun _ _ => 0

/-- A constant backbone output for a batch of one single-token example with
one hidden dimension and two layers, every entry equal to 1. -/
def exOutputs : BertOutputs 1 0 1 0 where
  last_hidden_state := fun _ _ _ => 1
  pooler_output := fun _ _ => 1
  hidden_states := fun _ _ _ _ => 1

/-- A backbone output for one example of two token positions and one hidden
dimension: the final layer holds 1 at position 0 and 3 at position 1. -/
def exOutputs2 : BertOutputs 1 1 1 0 where
  last_hidden_state := fun _ l _ => if l = 0 then 1 else 3
  pooler_output := fun _ _ => 1
  hidden_states := fun _ _ l _ => if l = 0 then 1 else 3

/-- An all-ones attention mask for one example of two token positions. -/
def exMaskOnes : Fin 1 → Fin 2 → ℚ := fun _ _ => 1

/-- An attention mask for one example of two token positions that unmasks only
position 1. -/
def exMaskHot : Fin 1 → Fin 2 → ℚ := fun _ l => if l = 1 then 1 else 0

/-- A small list of named parameters: a plain weight, a bias, and a layer-norm
scale parameter. -/
def exParams : List (String × ℕ) :=
  [("bert.encoder.weight", 0), ("bert.encoder.bias", 1),
    ("bert.embeddings.LayerNorm.weight", 2)]

/-! ### Helper lemmas -/

theorem isPre_refl (l : List Char) : isPre l l = true := by
  induction l with
  | nil => rfl
  | cons c cs ih => simp [isPre, ih]

theorem listInfix_self (n : List Char) : listInfix n n = true := by
  cases n with
  | nil => rfl
  | cons c cs => simp [listInfix, isPre_refl]

theorem listInfix_append (pre n : List Char) : listInfix n (pre ++ n) = true := by
  induction pre with
  | nil => simpa using listInfix_self n
  | cons a pre' ih => simp [listInfix, ih]

theorem strContains_append (s t : String) : strContains t (s ++ t) = true := by
  unfold strContains
  rw [String.data_append]
  exact listInfix_append s.data t.data

theorem poolerForward_cls {N L D K : ℕ} (mask : Fin N → Fin (L + 1) → ℚ)
    (o : BertOutputs N L D K) :
    poolerForward "cls" mask o = some (fun n d => o.last_hidden_state n 0 d) := by
  simp [poolerForward]

theorem poolerForward_cls_before {N L D K : ℕ} (mask : Fin N → Fin (L + 1) → ℚ)
    (o : BertOutputs N L D K) :
    poolerForward "cls_before_pooler" mask o =
      some (fun n d => o.last_hidden_state n 0 d) := by
  simp [poolerForward]

theorem poolerForward_avg {N L D K : ℕ} (mask : Fin N → Fin (L + 1) → ℚ)
    (o : BertOutputs N L D K) :
    poolerForward "avg" mask o = some (maskedAvg mask o.last_hidden_state) := by
  simp [poolerForward]

theorem poolerForward_avg_first_last {N L D K : ℕ}
    (mask : Fin N → Fin (L + 1) → ℚ) (o : BertOutputs N L D K) :
    poolerForward "avg_first_last" mask o =
      some (maskedAvg mask
        (fun n l d =>
          (o.hidden_states ⟨0, by omega⟩ n l d +
            o.hidden_states (Fin.last (K + 1)) n l d) / 2)) := by
  simp [poolerForward]

theorem poolerForward_avg_top2 {N L D K : ℕ}
    (mask : Fin N → Fin (L + 1) → ℚ) (o : BertOutputs N L D K) :
    poolerForward "avg_top2" mask o =
      some (maskedAvg mask
        (fun n l d =>
          (o.hidden_states (Fin.last (K + 1)) n l d +
            o.hidden_states ⟨K, by omega⟩ n l d) / 2)) := by
  simp [poolerForward]

theorem encoderForwardOut_not_cls {N L D K : ℕ} (pooler_type : String)
    (net : (Fin N → Fin D → ℚ) → Fin N → Fin D → ℚ)
    (mask : Fin N → Fin (L + 1) → ℚ) (o : BertOutputs N L D K)
    (h : pooler_type ≠ "cls") :
    encoderForwardOut pooler_type net mask o = poolerForward pooler_type mask o := by
  simp [encoderForwardOut, h]

/-! ### Claim theorems -/

/-- C1: in `Encoder.forward` with corruption enabled, the code zeroes a
non-boundary token exactly when its uniform draw is strictly ABOVE
`input_mask_rate`, not below it: with rate 1/10, token id 5 and draw 1/2, the
draw is not below the rate, yet the token is zeroed.  This evaluates the code
at the failing input of the claim. -/
theorem corruption_zeroes_when_draw_above_rate :
    corruptIds (1 / 10) exRand1 exIds1 0 0 = 0 ∧
      ¬ (exRand1 0 0 < 1 / 10) ∧ exIds1 0 0 ≠ 101 ∧ exIds1 0 0 ≠ 102 := by
  norm_num [corruptIds, sentenceMask, exRand1, exIds1]

/-- C3 counterexample: with corruption enabled, `Encoder.forward` mutates the
caller's `input_ids` in place, so the batch does not hold the same values
after the call: with rate 1/10, id 5 and draw 1/2 the stored id becomes 0. -/
theorem forward_mutates_input_ids :
    (forwardBatchAfter true (1 / 10) exRand1 exIds1 exMask1).1 ≠ exIds1 := by
  intro h
  have h00 := congrFun (congrFun h 0) 0
  norm_num [forwardBatchAfter, corruptIds, sentenceMask, exRand1, exIds1] at h00

/-- C3 (amended): `Encoder.forward` never modifies the caller's
`attention_mask`; with corruption disabled (`do_mlm = False`) it does not
modify `input_ids` either; and with corruption enabled, positions holding the
boundary ids 101 or 102 are left unchanged. -/
theorem forward_frame_after (N L : ℕ) (do_mlm : Bool) (input_mask_rate : ℚ)
    (randv : Fin N → Fin (L + 1) → ℚ) (input_ids : Fin N → Fin (L + 1) → ℤ)
    (attention_mask : Fin N → Fin (L + 1) → ℚ) :
    (forwardBatchAfter do_mlm input_mask_rate randv input_ids
        attention_mask).2 = attention_mask ∧
      (do_mlm = false →
        (forwardBatchAfter do_mlm input_mask_rate randv input_ids
          attention_mask).1 = input_ids) ∧
      (∀ n l, (input_ids n l = 101 ∨ input_ids n l = 102) →
        (forwardBatchAfter do_mlm input_mask_rate randv input_ids
          attention_mask).1 n l = input_ids n l) := by
  refine ⟨rfl, ?_, ?_⟩
  · intro h
    simp [forwardBatchAfter, h]
  · intro n l hb
    cases do_mlm with
    | false => rfl
    | true =>
      rcases hb with h | h <;>
        simp [forwardBatchAfter, corruptIds, sentenceMask, h]

/-- C3 (amended) witness at concrete inputs: no corruption leaves ids intact,
and corruption leaves a boundary id 101 intact. -/
theorem forward_frame_after_witness :
    (forwardBatchAfter false (1 / 10) exRand1 exIds1 exMask1).1 = exIds1 ∧
      (forwardBatchAfter true (1 / 10) exRand1 exBoundaryIds exMask1).1 0 0 =
        exBoundaryIds 0 0 :=
  ⟨(forward_frame_after 1 0 false (1 / 10) exRand1 exIds1 exMask1).2.1 rfl,
    (forward_frame_after 1 0 true (1 / 10) exRand1 exBoundaryIds exMask1).2.2
      0 0 (Or.inl rfl)⟩

/-- C4: `Encoder.forward` applies the projection head `net` to the pooled
embedding exactly for the pooling variant `cls`; for the four other variants
it returns the Pooler's output unmodified. -/
theorem projection_applied_iff_cls {N L D K : ℕ}
    (net : (Fin N → Fin D → ℚ) → Fin N → Fin D → ℚ)
    (mask : Fin N → Fin (L + 1) → ℚ) (o : BertOutputs N L D K) :
    encoderForwardOut "cls" net mask o = (poolerForward "cls" mask o).map net ∧
      encoderForwardOut "cls_before_pooler" net mask o =
        poolerForward "cls_before_pooler" mask o ∧
      encoderForwardOut "avg" net mask o = poolerForward "avg" mask o ∧
      encoderForwardOut "avg_top2" net mask o =
        poolerForward "avg_top2" mask o ∧
      encoderForwardOut "avg_first_last" net mask o =
        poolerForward "avg_first_last" mask o := by
  refine ⟨?_, ?_, ?_, ?_, ?_⟩
  · simp [encoderForwardOut]
  · exact encoderForwardOut_not_cls _ net mask o (by decide)
  · exact encoderForwardOut_not_cls _ net mask o (by decide)
  · exact encoderForwardOut_not_cls _ net mask o (by decide)
  · exact encoderForwardOut_not_cls _ net mask o (by decide)

/-- C5: for the `avg` pooling variant, `Pooler.forward` returns the
mask-weighted average of the final layer; with an all-ones attention mask this
is the unweighted mean of the token vectors, and for a row whose mask unmasks
exactly position k it is the hidden state at position k. -/
theorem avg_pooling_spec {N L D K : ℕ} (mask : Fin N → Fin (L + 1) → ℚ)
    (o : BertOutputs N L D K) :
    poolerForward "avg" mask o = some (maskedAvg mask o.last_hidden_state) ∧
      ((∀ n l, mask n l = 1) → ∀ n d,
        maskedAvg mask o.last_hidden_state n d =
          (∑ l, o.last_hidden_state n l d) / ((L : ℚ) + 1)) ∧
      (∀ (n : Fin N) (k : Fin (L + 1)),
        (∀ l, mask n l = if l = k then 1 else 0) → ∀ d,
          maskedAvg mask o.last_hidden_state n d =
            o.last_hidden_state n k d) := by
  refine ⟨poolerForward_avg mask o, ?_, ?_⟩
  · intro hm n d
    simp [maskedAvg, hm, Finset.sum_const, Finset.card_univ]
  · intro n k hk d
    simp [maskedAvg, hk, mul_ite, mul_one, mul_zero]

/-- C5 witness: with the concrete two-token backbone output, the all-ones
mask yields the unweighted mean and the one-hot mask yields the hidden state
at the unmasked position. -/
theorem avg_pooling_spec_witness :
    maskedAvg exMaskOnes exOutputs2.last_hidden_state 0 0 =
        (∑ l, exOutputs2.last_hidden_state 0 l 0) / (((1 : ℕ) : ℚ) + 1) ∧
      maskedAvg exMaskHot exOutputs2.last_hidden_state 0 0 =
        exOutputs2.last_hidden_state 0 1 0 :=
  ⟨(avg_pooling_spec exMaskOnes exOutputs2).2.1 (fun _ _ => rfl) 0 0,
    (avg_pooling_spec exMaskHot exOutputs2).2.2 0 1 (fun _ => rfl) 0⟩

/-- C6: when the backbone's last two per-layer hidden states coincide (and
the final layer equals the last entry of the per-layer tuple, as the backbone
guarantees), `avg_top2` pooling equals `avg` pooling; likewise when the first
and last layers coincide, `avg_first_last` pooling equals `avg` pooling. -/
theorem avg_variants_reduce_to_avg {N L D K : ℕ}
    (mask : Fin N → Fin (L + 1) → ℚ) (o : BertOutputs N L D K)
    (hlast : o.last_hidden_state = o.hidden_states (Fin.last (K + 1))) :
    (o.hidden_states ⟨K, by omega⟩ = o.hidden_states (Fin.last (K + 1)) →
        poolerForward "avg_top2" mask o = poolerForward "avg" mask o) ∧
      (o.hidden_states ⟨0, by omega⟩ = o.hidden_states (Fin.last (K + 1)) →
        poolerForward "avg_first_last" mask o = poolerForward "avg" mask o) := by
  constructor
  · intro h2
    rw [poolerForward_avg_top2, poolerForward_avg]
    congr 1
    have hh : (fun n l d =>
        (o.hidden_states (Fin.last (K + 1)) n l d +
          o.hidden_states (⟨K, by omega⟩ : Fin (K + 2)) n l d) / 2) =
        o.last_hidden_state := by
      funext n l d
      rw [h2, hlast]
      ring
    rw [hh]
  · intro h0
    rw [poolerForward_avg_first_last, poolerForward_avg]
    congr 1
    have hh : (fun n l d =>
        (o.hidden_states (⟨0, by omega⟩ : Fin (K + 2)) n l d +
          o.hidden_states (Fin.last (K + 1)) n l d) / 2) =
        o.last_hidden_state := by
      funext n l d
      rw [h0, hlast]
      ring
    rw [hh]

/-- C6 witness: on the constant two-layer backbone output both reductions
hold concretely. -/
theorem avg_variants_reduce_to_avg_witness :
    poolerForward "avg_top2" exMask1 exOutputs =
        poolerForward "avg" exMask1 exOutputs ∧
      poolerForward "avg_first_last" exMask1 exOutputs =
        poolerForward "avg" exMask1 exOutputs :=
  ⟨(avg_variants_reduce_to_avg exMask1 exOutputs rfl).1 rfl,
    (avg_variants_reduce_to_avg exMask1 exOutputs rfl).2 rfl⟩

/-- C10: whenever `Pooler.__init__` accepts the pooling-strategy name, the
if/elif chain of `Pooler.forward` handles every call: the final
`NotImplementedError` branch is unreachable. -/
theorem pooler_forward_never_not_implemented {N L D K : ℕ}
    (pooler_type : String) (mask : Fin N → Fin (L + 1) → ℚ)
    (o : BertOutputs N L D K)
    (h : ∃ s, poolerInit pooler_type = Except.ok s) :
    (poolerForward pooler_type mask o).isSome = true := by
  obtain ⟨s, hs⟩ := h
  by_cases hmem : pooler_type ∈ recognizedPoolers
  · simp only [recognizedPoolers, List.mem_cons, List.not_mem_nil, or_false]
      at hmem
    rcases hmem with h1 | h1 | h1 | h1 | h1 <;> subst h1 <;> simp [poolerForward]
  · simp [poolerInit, hmem] at hs

/-- C10 witness: the `avg` pooler is accepted at construction and its forward
pass returns an embedding on a concrete input. -/
theorem pooler_forward_never_not_implemented_witness :
    (poolerForward "avg" exMask1 exOutputs).isSome = true :=
  pooler_forward_never_not_implemented "avg" exMask1 exOutputs
    ⟨"avg", by simp [poolerInit, recognizedPoolers]⟩

/-- C7 counterexample: `MLPLayer.__init__` with the unrecognized activation
name `tanh` does fail at construction, but with an unbound-local-variable
error whose message does not mention the offending name — not a descriptive
configuration error as the claim states. -/
theorem mlp_init_error_not_descriptive :
    mlpLayerInit "tanh" = .error (.unboundLocal "activation_fn") ∧
      strContains "tanh"
        (PyError.message (.unboundLocal "activation_fn")) = false := by
  constructor
  · rfl
  · decide

/-- C7 (amended): an unrecognized pooling-strategy name makes `Pooler.__init__`
fail at construction with a descriptive assertion error naming the bad value;
an unrecognized activation name makes `MLPLayer.__init__` fail at construction
too — never silently defaulting — but with an unbound-local-variable error. -/
theorem construction_fails_fast :
    (∀ pt : String, pt ∉ recognizedPoolers →
      poolerInit pt =
          .error (.assertionError ("unrecognized_pooling_type: " ++ pt)) ∧
        strContains pt
          (PyError.message
            (.assertionError ("unrecognized_pooling_type: " ++ pt))) = true) ∧
      (∀ a : String, lookupActivation a = none →
        mlpLayerInit a = .error (.unboundLocal "activation_fn")) := by
  constructor
  · intro pt hpt
    refine ⟨?_, ?_⟩
    · simp [poolerInit, hpt]
    · exact strContains_append "unrecognized_pooling_type: " pt
  · intro a ha
    simp [mlpLayerInit, ha]

/-- C7 (amended) witness: the unrecognized names `foo` and `tanh` both fail at
construction with the respective errors. -/
theorem construction_fails_fast_witness :
    poolerInit "foo" =
        .error (.assertionError ("unrecognized_pooling_type: " ++ "foo")) ∧
      mlpLayerInit "sigmoid" = .error (.unboundLocal "activation_fn") :=
  ⟨(construction_fails_fast.1 "foo" (by decide)).1,
    construction_fails_fast.2 "sigmoid" rfl⟩

/-- C8: `configure_optimizers` builds exactly two groups whose weight decays
are the configured value and 0.0; the two name-filtered parameter lists
partition the named parameters (their concatenation is a permutation of the
parameter list, and each named parameter lands in exactly one of them,
according to whether its name contains a `no_decay` marker). -/
theorem optimizer_groups_partition {α : Type} (weight_decay : ℚ)
    (params : List (String × α)) :
    (configureOptimizers weight_decay params).length = 2 ∧
      (configureOptimizers weight_decay params).map Prod.snd =
        [weight_decay, 0] ∧
      List.Perm (decayParams params ++ noDecayParams params) params ∧
      (∀ np ∈ params,
        (hasNoDecayMarker np.1 = true →
          np ∈ noDecayParams params ∧ np ∉ decayParams params ∧
            np.2 ∈ (noDecayParams params).map Prod.snd) ∧
        (hasNoDecayMarker np.1 = false →
          np ∈ decayParams params ∧ np ∉ noDecayParams params ∧
            np.2 ∈ (decayParams params).map Prod.snd)) := by
  refine ⟨rfl, rfl, ?_, ?_⟩
  · unfold decayParams noDecayParams
    exact List.perm_append_comm.trans
      (List.filter_append_perm (fun np => hasNoDecayMarker np.1) params)
  · intro np hnp
    constructor
    · intro hq
      refine ⟨List.mem_filter.mpr ⟨hnp, hq⟩, ?_, ?_⟩
      · intro hmem
        have hcontra := (List.mem_filter.mp hmem).2
        simp [hq] at hcontra
      · exact List.mem_map.mpr ⟨np, List.mem_filter.mpr ⟨hnp, hq⟩, rfl⟩
    · intro hq
      refine ⟨List.mem_filter.mpr ⟨hnp, by simp [hq]⟩, ?_, ?_⟩
      · intro hmem
        have hcontra := (List.mem_filter.mp hmem).2
        simp [hq] at hcontra
      · exact List.mem_map.mpr ⟨np, List.mem_filter.mpr ⟨hnp, by simp [hq]⟩, rfl⟩

/-- C8 witness: on a concrete parameter list, the bias parameter lands in the
zero-decay group and not in the decay group, while the plain weight lands in
the decay group. -/
theorem optimizer_groups_partition_witness :
    ("bert.encoder.bias", 1) ∈ noDecayParams exParams ∧
      ("bert.encoder.bias", 1) ∉ decayParams exParams ∧
      ("bert.encoder.weight", 0) ∈ decayParams exParams :=
  ⟨(((optimizer_groups_partition (1 / 100) exParams).2.2.2
      ("bert.encoder.bias", 1) (by decide)).1 (by decide)).1,
    (((optimizer_groups_partition (1 / 100) exParams).2.2.2
      ("bert.encoder.bias", 1) (by decide)).1 (by decide)).2.1,
    (((optimizer_groups_partition (1 / 100) exParams).2.2.2
      ("bert.encoder.weight", 0) (by decide)).2 (by decide)).1⟩

/-- C2: the logged `diff/pos` is the Frobenius norm of the whole difference
matrix of the positive rows (`torch.norm` with no `dim`, whose `.mean()` is a
no-op on a scalar), not the mean per-example Euclidean distance: on a batch
of two positive examples with difference rows (3) and (4) the code logs 5
while the claimed mean distance is 7/2. -/
theorem eval_diff_frobenius_not_mean :
    evalPosDiff exLabels2 exAnchor2 exTarget2 = 5 ∧
      specMeanPosDiff exLabels2 exAnchor2 exTarget2 = 7 / 2 ∧
      evalPosDiff exLabels2 exAnchor2 exTarget2 ≠
        specMeanPosDiff exLabels2 exAnchor2 exTarget2 := by
  have hfilter :
      Finset.univ.filter (fun i : Fin 2 => exLabels2 i = 1) = Finset.univ := by
    simp [exLabels2]
  have h1 : evalPosDiff exLabels2 exAnchor2 exTarget2 = 5 := by
    unfold evalPosDiff frobNormOver
    rw [hfilter, Fin.sum_univ_two]
    simp only [exAnchor2, exTarget2]
    norm_num
    rw [show (25 : ℝ) = 5 ^ 2 by norm_num]
    exact Real.sqrt_sq (by norm_num)
  have h2 : specMeanPosDiff exLabels2 exAnchor2 exTarget2 = 7 / 2 := by
    unfold specMeanPosDiff
    rw [hfilter, Fin.sum_univ_two]
    simp only [exAnchor2, exTarget2]
    norm_num
    rw [show (9 : ℝ) = 3 ^ 2 by norm_num, show (16 : ℝ) = 4 ^ 2 by norm_num,
      Real.sqrt_sq (by norm_num : (0 : ℝ) ≤ 3),
      Real.sqrt_sq (by norm_num : (0 : ℝ) ≤ 4)]
    norm_num
  refine ⟨h1, h2, ?_⟩
  rw [h1, h2]
  norm_num

/-- C9: with hard-negative weight 0, the contrastive loss equals the
unweighted in-batch-negative loss — the mean row-wise cross-entropy over the
concatenated similarity logits with no bias on any negative column. -/
theorem zero_hard_negative_weight_is_unweighted {N D : ℕ} (temp : ℝ)
    (za zt zn : Fin N → Fin D → ℝ) :
    contrastiveLoss temp 0 za zt zn = inBatchLoss temp za zt zn := by
  have hrow : lossLogits temp 0 za zt zn = inBatchLogits temp za zt zn := by
    funext i j
    cases j <;> simp [lossLogits, inBatchLogits]
  unfold contrastiveLoss inBatchLoss
  rw [hrow]

end ParCSE
